import Mathlib

/-!
Shallow embedding of `src/packages/slate-react/src/components/node.js`:
the range-projection function `getRelativeRange`, the update gate
`shouldComponentUpdate`, and the per-child overlay computation of `render`.

Immutable.js `List.first()` / `Map`/`List` values are modelled as Lean
lists; `first()` on an empty list yields JS `undefined`, modelled as
`Option.none`.  JS numeric comparisons against `undefined` are always
false; the helpers `optLtNat`, `natLeOpt`, `optLeNat`, `natLtOpt` encode
this.  Code paths that would throw a `TypeError` in JS (member access on
`undefined`) are modelled with `Except.error`.
-/

namespace Slate

/-- The `object` tag of a slate node: 'document' | 'block' | 'inline' | 'text'. -/
inductive NodeObject where
  | document
  | block
  | inline
  | text
deriving DecidableEq

/-- A slate node: a text leaf (with its literal string) or an interior
node (document / block / inline) with an ordered child list.  Every node
carries its stable `key`. -/
inductive Node where
  | text (key : String) (leaf : String) : Node
  | elem (key : String) (object : NodeObject) (nodes : List Node) : Node

/-- `node.object`. -/
def Node.object : Node → NodeObject
  | .text _ _ => NodeObject.text
  | .elem _ o _ => o

/-- `node.key`. -/
def Node.key : Node → String
  | .text k _ => k
  | .elem k _ _ => k

/-- `node.nodes` (the ordered child list; a text leaf has none). -/
def Node.nodes : Node → List Node
  | .text _ _ => []
  | .elem _ _ ns => ns

mutual

/-- `node.texts()`: the text descendants of a node in document order,
each paired with its path relative to `node`. -/
def Node.texts : Node → List (Node × List Nat)
  | .text k s => [(.text k s, [])]
  | .elem _ _ ns => textsFrom ns 0

/-- Text descendants of the children `ns`, whose first child has index
`i` in the parent, paired with parent-relative paths. -/
def textsFrom : List Node → Nat → List (Node × List Nat)
  | [], _ => []
  | c :: cs, i => (Node.texts c).map (fun p => (p.1, i :: p.2)) ++ textsFrom cs (i + 1)

end

/-- `node.text`: the concatenated text content of the node's text
descendants (for a text leaf, its own string). -/
def Node.textVal (n : Node) : String :=
  String.join (n.texts.map fun p =>
    match p.1 with
    | .text _ s => s
    | .elem _ _ _ => "")

/-- A slate `Point`: a path plus a text offset. -/
structure Point where
  path : List Nat
  offset : Nat
deriving DecidableEq

/-- `point.setPath(path)`. -/
def Point.setPath (p : Point) (path : List Nat) : Point :=
  { p with path := path }

/-- `point.moveTo(path, offset)`: set both coordinates. -/
def Point.moveTo (_p : Point) (path : List Nat) (offset : Nat) : Point :=
  { path := path, offset := offset }

/-- A slate `Range` (shared shape of selections, decorations and
annotations): a start point, an end point, and kind-specific metadata
(`kind`, the focus flag, marks, a stable key). -/
structure Range where
  start : Point
  finish : Point
  kind : String
  isFocused : Bool
  marks : List String
  key : String
deriving DecidableEq

/-- `range.setStart(point)`. -/
def Range.setStart (r : Range) (p : Point) : Range :=
  { r with start := p }

/-- `range.setEnd(point)`. -/
def Range.setEnd (r : Range) (p : Point) : Range :=
  { r with finish := p }

/-- JS `a < b` where `a` may be `undefined` (then the comparison is false). -/
def optLtNat : Option Nat → Nat → Bool
  | some a, b => a < b
  | none, _ => false

/-- JS `a <= b` where `b` may be `undefined` (then the comparison is false). -/
def natLeOpt : Nat → Option Nat → Bool
  | a, some b => a ≤ b
  | _, none => false

/-- JS `a <= b` where `a` may be `undefined` (then the comparison is false). -/
def optLeNat : Option Nat → Nat → Bool
  | some a, b => a ≤ b
  | none, _ => false

/-- JS `a < b` where `b` may be `undefined` (then the comparison is false). -/
def natLtOpt : Nat → Option Nat → Bool
  | a, some b => a < b
  | _, none => false

/-- The start half of `getRelativeRange` (source lines 227-239): rebase
when the start's leading path component equals `index`, clamp to the
child's beginning when the range spans past this child from before,
otherwise no start. -/
def projectStart (node : Node) (index : Nat) (range : Range) : Except String (Option Point) :=
  if range.start.path.head? = some index then
    .ok (some (range.start.setPath range.start.path.tail))
  else if optLtNat range.start.path.head? index && natLeOpt index range.finish.path.head? then
    match node.nodes.get? index with
    | none => .error "child undefined"
    | some child =>
      if child.object = NodeObject.text then
        .ok (some (range.start.moveTo [index] 0))
      else
        match child.texts.head? with
        | none => .error "child has no text descendant"
        | some first => .ok (some (range.start.moveTo first.2 0))
  else
    .ok none

/-- The end half of `getRelativeRange` (source lines 241-253): rebase
when the end's leading path component equals `index`, clamp to the
child's last text position when the range spans past this child,
otherwise no end. -/
def projectEnd (node : Node) (index : Nat) (range : Range) : Except String (Option Point) :=
  if range.finish.path.head? = some index then
    .ok (some (range.finish.setPath range.finish.path.tail))
  else if optLeNat range.start.path.head? index && natLtOpt index range.finish.path.head? then
    match node.nodes.get? index with
    | none => .error "child undefined"
    | some child =>
      if child.object = NodeObject.text then
        .ok (some (range.finish.moveTo [index] child.textVal.length))
      else
        match child.texts.getLast? with
        | none => .error "child has no text descendant"
        | some last => .ok (some (range.finish.moveTo last.2 last.1.textVal.length))
  else
    .ok none

/-- `getRelativeRange(node, index, range)` (source lines 219-262),
translated line by line: compute the relative start, compute the
relative end, return `null` when either is missing, else return the
range with both endpoints replaced. -/
def getRelativeRange (node : Node) (index : Nat) (range : Range) : Except String (Option Range) :=
  match projectStart node index range with
  | .error msg => .error msg
  | .ok so =>
    match projectEnd node index range with
    | .error msg => .error msg
    | .ok eo =>
      match so, eo with
      | some s, some e => .ok (some ((range.setStart s).setEnd e))
      | _, _ => .ok none

/-- Does a projection result hold an actual (non-null) range? -/
def projects (x : Except String (Option Range)) : Bool :=
  match x with
  | .ok (some _) => true
  | _ => false

/-- Combination step written from the spec's words (§4.1 step 4): if
both projected start and end resolve, return a new Range with those
endpoints and the original metadata unchanged; if either fails to
resolve, return null. -/
def projectRangeSpec (node : Node) (index : Nat) (range : Range) : Except String (Option Range) := do
  let so ← projectStart node index range
  let eo ← projectEnd node index range
  match so, eo with
  | some s, some e => pure (some { range with start := s, finish := e })
  | _, _ => pure none

/-- A node with two text children, "Hello" at index 0 and "World" at
index 1 (the spec's exact-boundary example). -/
def helloWorldNode : Node :=
  .elem "parent" .block [.text "a" "Hello", .text "b" "World"]

/-- The range with start = (path [0], offset 2), end = (path [1], offset 3)
of the spec's exact-boundary example. -/
def exampleRange : Range :=
  { start := ⟨[0], 2⟩, finish := ⟨[1], 3⟩, kind := "selection",
    isFocused := false, marks := [], key := "" }

/-- C1: evaluating `getRelativeRange` on the spec's exact-boundary
example.  Projecting onto child 0 yields end path `[0]` (not the
child-relative `[]` the spec states), and onto child 1 start path `[1]`
(not `[]`): the text-leaf clamp branches move the point to
`PathUtils.create([index])`, leaving the clamped coordinate in the
parent's space while the rebase branch and the interior-child clamp
branch both produce child-relative paths. -/
theorem helloWorld_projection_eval :
    getRelativeRange helloWorldNode 0 exampleRange =
      .ok (some { exampleRange with start := ⟨[], 2⟩, finish := ⟨[0], 5⟩ }) ∧
    getRelativeRange helloWorldNode 1 exampleRange =
      .ok (some { exampleRange with start := ⟨[1], 0⟩, finish := ⟨[], 3⟩ }) :=
  ⟨rfl, rfl⟩

/-- C8: `getRelativeRange` is exactly the spec's step-4 combination of
the two independently projected endpoints — when both resolve it
returns the range with only `start` and `finish` replaced (all metadata
fields unchanged by the record update), and when either is missing it
returns null. -/
theorem getRelativeRange_eq_projectRangeSpec (node : Node) (index : Nat) (range : Range) :
    getRelativeRange node index range = projectRangeSpec node index range := by
  unfold getRelativeRange projectRangeSpec
  cases projectStart node index range with
  | error msg => rfl
  | ok so =>
    cases projectEnd node index range with
    | error msg => rfl
    | ok eo => cases so <;> cases eo <;> rfl

/-- C10: a range whose start path is empty projects onto no child: the
absent leading component satisfies neither the rebase test nor the
clamp test for the start point, so the whole projection is null (and no
error is raised). -/
theorem emptyStartPath_projects_none (node : Node) (index : Nat) (range : Range)
    (h : range.start.path = []) : getRelativeRange node index range = .ok none := by
  have hs : projectStart node index range = .ok none := by
    unfold projectStart
    rw [h]
    simp [optLtNat]
  have he : ∃ eo, projectEnd node index range = .ok eo := by
    unfold projectEnd
    by_cases hend : range.finish.path.head? = some index
    · rw [if_pos hend]
      exact ⟨_, rfl⟩
    · rw [if_neg hend, h]
      have h3 : ¬ ((optLeNat ([] : List Nat).head? index
          && natLtOpt index range.finish.path.head?) = true) := by
        simp [optLeNat]
      rw [if_neg h3]
      exact ⟨none, rfl⟩
  obtain ⟨eo, he⟩ := he
  unfold getRelativeRange
  rw [hs, he]

/-- C6: a range whose start's leading path component is out of the
node's child count projects onto no existing child — for every valid
child index the result is null, and no error is raised. -/
theorem malformedStart_projects_none (node : Node) (range : Range) (s : Nat)
    (hs : range.start.path.head? = some s) (hbound : node.nodes.length ≤ s) :
    ∀ index, index < node.nodes.length → getRelativeRange node index range = .ok none := by
  intro index hidx
  have hsi : ¬ (s = index) := by omega
  have hlt : ¬ (s < index) := by omega
  have hle : ¬ (s ≤ index) := by omega
  have hstart : projectStart node index range = .ok none := by
    unfold projectStart
    rw [hs]
    simp [optLtNat, hsi, hlt]
  have he : ∃ eo, projectEnd node index range = .ok eo := by
    unfold projectEnd
    by_cases hend : range.finish.path.head? = some index
    · rw [if_pos hend]
      exact ⟨_, rfl⟩
    · rw [if_neg hend, hs]
      have h3 : ¬ ((optLeNat (some s) index
          && natLtOpt index range.finish.path.head?) = true) := by
        simp [optLeNat, hle]
      rw [if_neg h3]
      exact ⟨none, rfl⟩
  obtain ⟨eo, he⟩ := he
  unfold getRelativeRange
  rw [hstart, he]

/-- The props of a `Node` component that `shouldComponentUpdate`
inspects.  `node` holds the reference identity of the node value: the
source compares `n.node !== p.node` by reference, so distinct
references are modelled as distinct tokens.  The Immutable.js
annotation map (key to range) and decoration list are modelled as
lists; their `.equals` structural comparison is list equality. -/
structure GateProps where
  readOnly : Bool
  node : Nat
  isSelected : Bool
  isFocused : Bool
  annotations : List (String × Range)
  decorations : List Range
deriving DecidableEq

/-- The observable outcome of `shouldComponentUpdate`: the returned
boolean and whether the `tiny-warning` developer warning fired. -/
structure UpdateDecision where
  update : Bool
  warned : Bool
deriving DecidableEq

/-- The built-in checks of `shouldComponentUpdate` (source lines
90-115), in source order: read-only flag changed, node reference
changed, either side selected, either side focused, annotations
changed, decorations changed; otherwise no update. -/
def internalShouldUpdate (p n : GateProps) : Bool :=
  if n.readOnly ≠ p.readOnly then true
  else if n.node ≠ p.node then true
  else if n.isSelected || p.isSelected then true
  else if n.isFocused || p.isFocused then true
  else if ¬ (n.annotations = p.annotations) then true
  else if ¬ (n.decorations = p.decorations) then true
  else false

/-- `shouldComponentUpdate` (source lines 65-116).  The external
`shouldNodeComponentUpdate` hook's verdict is `hookResult` (`none`
models `null`/`undefined`).  A definite yes returns true at once; a
definite no fires the warning (`warning(shouldUpdate !== false, ...)`)
and execution falls through to the built-in checks regardless. -/
def shouldComponentUpdate (p n : GateProps) (hookResult : Option Bool) : UpdateDecision :=
  match hookResult with
  | some b =>
    if b then { update := true, warned := false }
    else { update := internalShouldUpdate p n, warned := true }
  | none => { update := internalShouldUpdate p n, warned := false }

/-- C3: a definite yes from the override hook immediately forces an
update; a definite no cannot veto the built-in checks — when the node
reference differs the gate still returns update, and the negative
verdict is reported as a developer warning, not honored. -/
theorem overrideHook_cannot_veto (p n : GateProps) (hook : Option Bool) :
    (hook = some true → (shouldComponentUpdate p n hook).update = true) ∧
    (hook = some false → p.node ≠ n.node →
      (shouldComponentUpdate p n hook).update = true ∧
      (shouldComponentUpdate p n hook).warned = true) := by
  constructor
  · intro h
    subst h
    rfl
  · intro h hne
    subst h
    refine ⟨?_, rfl⟩
    show internalShouldUpdate p n = true
    by_cases hro : n.readOnly ≠ p.readOnly
    · simp [internalShouldUpdate, hro]
    · simp [internalShouldUpdate, hro, Ne.symm hne]

/-- Quiet baseline props: unselected, unfocused, empty overlays. -/
def gatePropsA : GateProps :=
  { readOnly := false, node := 0, isSelected := false, isFocused := false,
    annotations := [], decorations := [] }

/-- Same as `gatePropsA` but holding a different node reference. -/
def gatePropsB : GateProps :=
  { gatePropsA with node := 1 }

/-- Witness for C3 at concrete props: a yes forces the update, and a no
with a changed node reference still updates and warns. -/
theorem overrideHook_cannot_veto_witness :
    (shouldComponentUpdate gatePropsA gatePropsB (some true)).update = true ∧
    ((shouldComponentUpdate gatePropsA gatePropsB (some false)).update = true ∧
     (shouldComponentUpdate gatePropsA gatePropsB (some false)).warned = true) :=
  ⟨(overrideHook_cannot_veto gatePropsA gatePropsB (some true)).1 rfl,
   (overrideHook_cannot_veto gatePropsA gatePropsB (some false)).2 rfl (by decide)⟩

/-- Props focused on both sides, with every other no-update condition
of the claim satisfied. -/
def focusedProps : GateProps :=
  { readOnly := false, node := 0, isSelected := false, isFocused := true,
    annotations := [], decorations := [] }

/-- C4 counterexample: with old and new props identical — read-only
unchanged, same node reference, selected in neither, the focused flag
equal (true on both sides), equal annotation and decoration lists, and
no hook verdict — the gate still returns update, because the source
updates whenever either side is focused, not only when the flag
differs. -/
theorem focusedEqual_still_updates :
    focusedProps.isSelected = false ∧
    (shouldComponentUpdate focusedProps focusedProps none).update = true :=
  ⟨rfl, rfl⟩

/-- C4 amended: the gate updates whenever the focused flag differs, and
it returns no update when the read-only flag is unchanged, the node
reference is the same, the node is selected in neither props, focused
in neither props (mere equality of the flags is not enough), the
annotation and decoration lists are equal, and the hook gives no
definite yes. -/
theorem focusChange_and_noUpdate (p n : GateProps) (hook : Option Bool) :
    (p.isFocused ≠ n.isFocused → (shouldComponentUpdate p n hook).update = true) ∧
    (p.readOnly = n.readOnly → p.node = n.node →
     p.isSelected = false → n.isSelected = false →
     p.isFocused = false → n.isFocused = false →
     p.annotations = n.annotations → p.decorations = n.decorations →
     hook ≠ some true → (shouldComponentUpdate p n hook).update = false) := by
  constructor
  · intro hf
    have hint : internalShouldUpdate p n = true := by
      unfold internalShouldUpdate
      split_ifs <;> simp_all
    cases hook with
    | none => simp [shouldComponentUpdate, hint]
    | some b =>
      cases b
      · simp [shouldComponentUpdate, hint]
      · rfl
  · intro h1 h2 h3 h4 h5 h6 h7 h8 h9
    have hint : internalShouldUpdate p n = false := by
      unfold internalShouldUpdate
      simp [h1, h2, h3, h4, h5, h6, h7, h8]
    cases hook with
    | none => simp [shouldComponentUpdate, hint]
    | some b =>
      cases b
      · simp [shouldComponentUpdate, hint]
      · exact absurd rfl h9

/-- `gatePropsA` with the focused flag raised. -/
def gateFocusedNew : GateProps :=
  { gatePropsA with isFocused := true }

/-- Witness for the amended C4 at concrete props: flipping only the
focused flag updates; fully quiet identical props do not. -/
theorem focusChange_and_noUpdate_witness :
    (shouldComponentUpdate gatePropsA gateFocusedNew none).update = true ∧
    (shouldComponentUpdate gatePropsA gatePropsA none).update = false :=
  ⟨(focusChange_and_noUpdate gatePropsA gateFocusedNew none).1 (by decide),
   (focusChange_and_noUpdate gatePropsA gatePropsA none).2 rfl rfl rfl rfl rfl rfl rfl rfl
     (by decide)⟩

/-- Props selected on both (identical) sides. -/
def selectedProps : GateProps :=
  { readOnly := false, node := 0, isSelected := true, isFocused := false,
    annotations := [], decorations := [] }

/-- C5 counterexample: identical old and new props do not always yield
false — with the node selected on both (identical) sides the gate
returns update. -/
theorem identicalProps_can_update :
    (shouldComponentUpdate selectedProps selectedProps none).update = true :=
  rfl

/-- C5 amended: identical props yield no update provided the node is
neither selected nor focused in them and the hook returns no definite
yes. -/
theorem identicalProps_skip (p : GateProps) (hook : Option Bool)
    (hsel : p.isSelected = false) (hfoc : p.isFocused = false)
    (hhook : hook ≠ some true) :
    (shouldComponentUpdate p p hook).update = false := by
  have hint : internalShouldUpdate p p = false := by
    unfold internalShouldUpdate
    simp [hsel, hfoc]
  cases hook with
  | none => simp [shouldComponentUpdate, hint]
  | some b =>
    cases b
    · simp [shouldComponentUpdate, hint]
    · exact absurd rfl hhook

/-- Witness for the amended C5 at concrete props: quiet identical props
with a vetoing hook still skip the re-render. -/
theorem identicalProps_skip_witness :
    (shouldComponentUpdate gatePropsA gatePropsA (some false)).update = false :=
  identicalProps_skip gatePropsA (some false) rfl rfl (by decide)

lemma exists_head_some {α : Type} (l : List α) (h : l ≠ []) : ∃ x, l.head? = some x := by
  cases l with
  | nil => exact absurd rfl h
  | cons a t => exact ⟨a, rfl⟩

lemma exists_getLast_some {α : Type} (l : List α) (h : l ≠ []) : ∃ x, l.getLast? = some x := by
  induction l with
  | nil => exact absurd rfl h
  | cons a t ih =>
    cases t with
    | nil => exact ⟨a, rfl⟩
    | cons b u =>
      obtain ⟨x, hx⟩ := ih (by simp)
      exact ⟨x, by rw [List.getLast?_cons_cons]; exact hx⟩

lemma projectStart_rebase (node : Node) (index : Nat) (r : Range)
    (hs : r.start.path.head? = some index) :
    projectStart node index r = .ok (some (r.start.setPath r.start.path.tail)) := by
  unfold projectStart
  rw [hs, if_pos rfl]

lemma projectEnd_rebase (node : Node) (index : Nat) (r : Range)
    (he : r.finish.path.head? = some index) :
    projectEnd node index r = .ok (some (r.finish.setPath r.finish.path.tail)) := by
  unfold projectEnd
  rw [he, if_pos rfl]

lemma projectStart_clamp (node : Node) (index : Nat) (r : Range) (s e : Nat) (child : Node)
    (hs : r.start.path.head? = some s) (he : r.finish.path.head? = some e)
    (hslt : s < index) (hie : index ≤ e)
    (hcg : node.nodes.get? index = some child) (hct : child.texts ≠ []) :
    ∃ pt, projectStart node index r = .ok (some pt) := by
  unfold projectStart
  rw [hs, he, hcg]
  by_cases hto : child.object = NodeObject.text
  · exact ⟨r.start.moveTo [index] 0,
      by simp [optLtNat, natLeOpt, hslt, hie, hto, show ¬ (s = index) by omega]⟩
  · obtain ⟨x, hx⟩ := exists_head_some child.texts hct
    exact ⟨r.start.moveTo x.2 0,
      by simp [optLtNat, natLeOpt, hslt, hie, hto, hx, show ¬ (s = index) by omega]⟩

lemma projectEnd_clamp (node : Node) (index : Nat) (r : Range) (s e : Nat) (child : Node)
    (hs : r.start.path.head? = some s) (he : r.finish.path.head? = some e)
    (hsle : s ≤ index) (hlt : index < e)
    (hcg : node.nodes.get? index = some child) (hct : child.texts ≠ []) :
    ∃ pt, projectEnd node index r = .ok (some pt) := by
  unfold projectEnd
  rw [hs, he, hcg]
  by_cases hto : child.object = NodeObject.text
  · exact ⟨r.finish.moveTo [index] child.textVal.length,
      by simp [optLeNat, natLtOpt, hsle, hlt, hto, show ¬ (e = index) by omega]⟩
  · obtain ⟨x, hx⟩ := exists_getLast_some child.texts hct
    exact ⟨r.finish.moveTo x.2 x.1.textVal.length,
      by simp [optLeNat, natLtOpt, hsle, hlt, hto, hx, show ¬ (e = index) by omega]⟩

lemma projectStart_none (node : Node) (index : Nat) (r : Range) (s e : Nat)
    (hs : r.start.path.head? = some s) (he : r.finish.path.head? = some e)
    (h1 : ¬ (s = index)) (h2 : ¬ (s < index ∧ index ≤ e)) :
    projectStart node index r = .ok none := by
  unfold projectStart
  rw [hs, he]
  simp [optLtNat, natLeOpt, h1, h2]

lemma projectEnd_none (node : Node) (index : Nat) (r : Range) (s e : Nat)
    (hs : r.start.path.head? = some s) (he : r.finish.path.head? = some e)
    (h1 : ¬ (e = index)) (h2 : ¬ (s ≤ index ∧ index < e)) :
    projectEnd node index r = .ok none := by
  unfold projectEnd
  rw [hs, he]
  simp [optLeNat, natLtOpt, h1, h2]

lemma getRelativeRange_ok_some (node : Node) (index : Nat) (r : Range) (ps pe : Point)
    (h1 : projectStart node index r = .ok (some ps))
    (h2 : projectEnd node index r = .ok (some pe)) :
    getRelativeRange node index r = .ok (some ((r.setStart ps).setEnd pe)) := by
  unfold getRelativeRange
  rw [h1, h2]

lemma getRelativeRange_none_of_start (node : Node) (index : Nat) (r : Range)
    (h1 : projectStart node index r = .ok none) (eo : Option Point)
    (h2 : projectEnd node index r = .ok eo) :
    getRelativeRange node index r = .ok none := by
  unfold getRelativeRange
  rw [h1, h2]

/-- C2: for a range whose endpoint paths start with valid child indices
`s ≤ e` of a node whose children all contain text, the set of child
indices onto which the range projects is exactly the contiguous run
from `s` to `e`. -/
theorem projection_partition (node : Node) (r : Range) (s e : Nat)
    (hs : r.start.path.head? = some s) (he : r.finish.path.head? = some e)
    (hsc : s < node.nodes.length) (hec : e < node.nodes.length) (hse : s ≤ e)
    (htx : ∀ c ∈ node.nodes, c.texts ≠ []) :
    ∀ index : Nat,
      projects (getRelativeRange node index r)
        = (decide (s ≤ index) && decide (index ≤ e)) := by
  intro index
  by_cases hsi : s ≤ index
  · by_cases hie : index ≤ e
    · have hlen : index < node.nodes.length := by omega
      have hcg : node.nodes.get? index = some (node.nodes.get ⟨index, hlen⟩) :=
        List.get?_eq_get hlen
      have hmem : node.nodes.get ⟨index, hlen⟩ ∈ node.nodes := List.get_mem _ _ _
      have hct := htx _ hmem
      have hsp : ∃ ps, projectStart node index r = .ok (some ps) := by
        by_cases hseq : s = index
        · exact ⟨_, projectStart_rebase node index r (hseq ▸ hs)⟩
        · exact projectStart_clamp node index r s e _ hs he (by omega) hie hcg hct
      have hep : ∃ pe, projectEnd node index r = .ok (some pe) := by
        by_cases heq : e = index
        · exact ⟨_, projectEnd_rebase node index r (heq ▸ he)⟩
        · exact projectEnd_clamp node index r s e _ hs he hsi (by omega) hcg hct
      obtain ⟨ps, hps⟩ := hsp
      obtain ⟨pe, hpe⟩ := hep
      rw [getRelativeRange_ok_some node index r ps pe hps hpe]
      simp [projects, hsi, hie]
    · have h1 : projectStart node index r = .ok none :=
        projectStart_none node index r s e hs he (by omega) (by omega)
      have h2 : projectEnd node index r = .ok none :=
        projectEnd_none node index r s e hs he (by omega) (by omega)
      rw [getRelativeRange_none_of_start node index r h1 none h2]
      simp [projects, hie]
  · have h1 : projectStart node index r = .ok none :=
      projectStart_none node index r s e hs he (by omega) (by omega)
    have h2 : projectEnd node index r = .ok none :=
      projectEnd_none node index r s e hs he (by omega) (by omega)
    rw [getRelativeRange_none_of_start node index r h1 none h2]
    simp [projects, hsi]

/-- Witness for C2: on the Hello/World node the example range projects
onto child index 1, matching the run from 0 to 1. -/
theorem projection_partition_witness :
    projects (getRelativeRange helloWorldNode 1 exampleRange)
      = (decide (0 ≤ 1) && decide (1 ≤ 1)) :=
  projection_partition helloWorldNode exampleRange 0 1 rfl rfl
    (by simp [helloWorldNode, Node.nodes]) (by simp [helloWorldNode, Node.nodes])
    (by omega)
    (by
      intro c hc
      simp [helloWorldNode, Node.nodes] at hc
      rcases hc with h | h <;> subst h <;> simp [Node.texts])
    1

/-- A range whose start path begins with child index 5, beyond the two
children of `helloWorldNode`. -/
def outOfBoundsRange : Range :=
  { start := ⟨[5], 0⟩, finish := ⟨[5], 1⟩, kind := "decoration",
    isFocused := false, marks := [], key := "x" }

/-- Witness for C6 at a concrete malformed range: the projection onto
child 0 of the Hello/World node is null without an error. -/
theorem malformedStart_projects_none_witness :
    getRelativeRange helloWorldNode 0 outOfBoundsRange = .ok none :=
  malformedStart_projects_none helloWorldNode outOfBoundsRange 5 rfl
    (by decide) 0 (by decide)

/-- A range whose start path is empty (it addresses the node itself). -/
def emptyStartRange : Range :=
  { start := ⟨[], 2⟩, finish := ⟨[1], 3⟩, kind := "selection",
    isFocused := false, marks := [], key := "" }

/-- Witness for C10 at a concrete range with an empty start path: the
projection onto child 0 of the Hello/World node is null. -/
theorem emptyStartPath_projects_none_witness :
    getRelativeRange helloWorldNode 0 emptyStartRange = .ok none :=
  emptyStartPath_projects_none helloWorldNode 0 emptyStartRange rfl

/-- The external collaborators reached through the editor handle: the
void predicate, the per-node decoration hook (the slate-core
`node.getDecorations(editor)`), and the text-direction computation
(the slate-core `node.getTextDirection()`), all outside src/. -/
structure Editor where
  isVoid : Node → Bool
  nodeDecorations : Node → List Range
  textDirection : Node → String

/-- Modelled from the spec: `node.getDecorations(editor)` (slate core,
not under src/) computes the node's fresh decorations via the external
per-node decoration hook; here the hook is the function carried by the
editor value. -/
def Node.getDecorations (node : Node) (editor : Editor) : List Range :=
  editor.nodeDecorations node

/-- Modelled from the spec: `node.isLeafBlock()` (slate core, not under
src/) — a block node none of whose children is itself a block. -/
def Node.isLeafBlock (node : Node) : Bool :=
  node.object = NodeObject.block && node.nodes.all (fun c => c.object ≠ NodeObject.block)

/-- Modelled from the spec: `node.getTextDirection()` (slate core, not
under src/) — the dominant text direction of the node's combined text,
an external computation carried by the editor value here. -/
def Node.getTextDirection (node : Node) (editor : Editor) : String :=
  editor.textDirection node

/-- The props assembled for one child element in `render` (source lines
151-163), which are also the shape of a `Node` component's own props:
block ancestor, editor handle, projected annotations, projected
decorations, projected selection, the child node, its parent, and the
read-only flag.  `usesTextComponent` records the component choice of
source line 139 (`Text` for a text child, `Node` otherwise). -/
structure ChildProps where
  block : Option Node
  editor : Editor
  annotations : List (String × Range)
  decorations : List Range
  selection : Option Range
  node : Node
  parent : Option Node
  readOnly : Bool
  usesTextComponent : Bool

/-- The attribute bag of source lines 166-175: the stable key attribute
plus the optional text-direction attribute. -/
structure Attributes where
  dataKey : String
  dir : Option String

/-- The props handed to the external render pipeline (source lines
177-201): the assembled prop object spread together with the attribute
bag and the child elements. -/
structure HookProps where
  key : String
  isFocused : Bool
  isSelected : Bool
  node : Node
  parent : Option Node
  readOnly : Bool
  attributes : Attributes
  children : List ChildProps

/-- The observable outcome of `Node.render`: which render hook
`editor.run` was invoked with, the props it received, and whether (and
with which props) the output was wrapped in the `Void` component. -/
structure RenderResult where
  usedHook : Option String
  hookProps : HookProps
  voidWrapped : Bool
  voidProps : Option ChildProps

/-- Elementwise effectful map over a list: the JS `.map` under which a
thrown error aborts the whole computation. -/
def mapExcept {α β : Type} (f : α → Except String β) : List α → Except String (List β)
  | [] => .ok []
  | a :: t =>
    match f a, mapExcept f t with
    | .error msg, _ => .error msg
    | .ok _, .error msg => .error msg
    | .ok b, .ok bs => .ok (b :: bs)

/-- The per-child body of `render`'s loop (source lines 138-163):
project the selection, project the fresh decorations and concatenate
the inherited ones, project the annotations dropping nulls, and build
the child's props. -/
def renderChild (props : ChildProps) (newDecorations : List Range) (i : Nat)
    (child : Node) : Except String ChildProps :=
  let node := props.node
  match (match props.selection with
         | some s => getRelativeRange node i s
         | none => .ok none) with
  | .error msg => .error msg
  | .ok sel =>
    match mapExcept (fun d => getRelativeRange node i d) newDecorations with
    | .error msg => .error msg
    | .ok projDecs =>
      match mapExcept
          (fun kv => Except.map (fun ro => (kv.1, ro)) (getRelativeRange node i kv.2))
          props.annotations with
      | .error msg => .error msg
      | .ok projAnns =>
        .ok {
          block := if node.object = NodeObject.block then some node else props.block,
          editor := props.editor,
          annotations := projAnns.filterMap (fun kv => kv.2.map (fun rr => (kv.1, rr))),
          decorations := projDecs.filterMap id ++ props.decorations,
          selection := sel,
          node := child,
          parent := some node,
          readOnly := props.readOnly,
          usesTextComponent := child.object = NodeObject.text }

/-- `Node.render` (source lines 124-208): fetch the fresh decorations,
build every child's props, assemble the attribute bag and the hook
props, pick the render hook by node category (block, document, inline,
in source order), and wrap the hook output in `Void` exactly when the
void predicate flags the node. -/
def render (props : ChildProps) : Except String RenderResult :=
  let node := props.node
  let editor := props.editor
  let newDecorations := node.getDecorations editor
  match mapExcept (fun ic => renderChild props newDecorations ic.1 ic.2) node.nodes.enum with
  | .error msg => .error msg
  | .ok children =>
    let attributes : Attributes :=
      { dataKey := node.key,
        dir := if node.isLeafBlock && (node.getTextDirection editor == "rtl")
               then some "rtl" else none }
    let hookProps : HookProps :=
      { key := node.key,
        isFocused := (match props.selection with | some sel => sel.isFocused | none => false),
        isSelected := props.selection.isSome,
        node := node,
        parent := props.parent,
        readOnly := props.readOnly,
        attributes := attributes,
        children := children }
    let hook : Option String :=
      if node.object = NodeObject.block then some "renderBlock"
      else if node.object = NodeObject.document then some "renderDocument"
      else if node.object = NodeObject.inline then some "renderInline"
      else none
    .ok { usedHook := hook, hookProps := hookProps,
          voidWrapped := editor.isVoid node,
          voidProps := if editor.isVoid node then some props else none }

/-- Written from the spec's words: every decoration in the list
projected onto child `i`, null results dropped. -/
def projectedDecorations (node : Node) (i : Nat) (rs : List Range) : List Range :=
  rs.filterMap (fun d =>
    match getRelativeRange node i d with
    | .ok ro => ro
    | .error _ => none)

/-- Written from the spec's words: every annotation entry's range
projected onto child `i`, entries with null results dropped. -/
def projectedAnnotations (node : Node) (i : Nat) (kvs : List (String × Range)) :
    List (String × Range) :=
  kvs.filterMap (fun kv =>
    match getRelativeRange node i kv.2 with
    | .ok (some rr) => some (kv.1, rr)
    | _ => none)

/-- Written from the spec's words: the hook name determined by node
category. -/
def specHookName : NodeObject → Option String
  | NodeObject.document => some "renderDocument"
  | NodeObject.block => some "renderBlock"
  | NodeObject.inline => some "renderInline"
  | NodeObject.text => none

lemma mapExcept_ok_get {α β : Type} (f : α → Except String β) (l : List α) (ys : List β)
    (h : mapExcept f l = .ok ys) :
    ∀ i y, ys.get? i = some y → ∃ x, l.get? i = some x ∧ f x = .ok y := by
  induction l generalizing ys with
  | nil =>
    simp only [mapExcept] at h
    cases h
    intro i y hy
    simp at hy
  | cons a t ih =>
    simp only [mapExcept] at h
    cases hfa : f a with
    | error m => rw [hfa] at h; simp at h
    | ok b =>
      rw [hfa] at h
      cases hmt : mapExcept f t with
      | error m => rw [hmt] at h; simp at h
      | ok bs =>
        rw [hmt] at h
        simp only [Except.ok.injEq] at h
        subst h
        intro i y hy
        cases i with
        | zero =>
          simp only [List.get?] at hy
          cases hy
          exact ⟨a, rfl, hfa⟩
        | succ n =>
          obtain ⟨x, hx1, hx2⟩ := ih bs hmt n y hy
          exact ⟨x, hx1, hx2⟩

lemma mapExcept_filterMap {α β γ : Type} (f : α → Except String β) (g : β → Option γ)
    (l : List α) (ys : List β) (h : mapExcept f l = .ok ys) :
    ys.filterMap g
      = l.filterMap (fun a =>
          match f a with
          | .ok b => g b
          | .error _ => none) := by
  induction l generalizing ys with
  | nil =>
    simp only [mapExcept] at h
    cases h
    rfl
  | cons a t ih =>
    simp only [mapExcept] at h
    cases hfa : f a with
    | error m => rw [hfa] at h; simp at h
    | ok b =>
      rw [hfa] at h
      cases hmt : mapExcept f t with
      | error m => rw [hmt] at h; simp at h
      | ok bs =>
        rw [hmt] at h
        simp only [Except.ok.injEq] at h
        subst h
        simp only [List.filterMap_cons, hfa]
        rw [ih bs hmt]

lemma renderChild_overlays (props : ChildProps) (newDecs : List Range) (i : Nat)
    (child : Node) (cp : ChildProps)
    (h : renderChild props newDecs i child = .ok cp) :
    cp.decorations = projectedDecorations props.node i newDecs ++ props.decorations ∧
    cp.annotations = projectedAnnotations props.node i props.annotations := by
  simp only [renderChild] at h
  cases hsel : (match props.selection with
                | some s => getRelativeRange props.node i s
                | none => .ok none) with
  | error m => rw [hsel] at h; simp at h
  | ok sel =>
    rw [hsel] at h
    cases hdec : mapExcept (fun d => getRelativeRange props.node i d) newDecs with
    | error m => rw [hdec] at h; simp at h
    | ok projDecs =>
      rw [hdec] at h
      cases hann : mapExcept
          (fun kv => Except.map (fun ro => (kv.1, ro)) (getRelativeRange props.node i kv.2))
          props.annotations with
      | error m => rw [hann] at h; simp at h
      | ok projAnns =>
        rw [hann] at h
        simp only [Except.ok.injEq] at h
        subst h
        constructor
        · have hd := mapExcept_filterMap
            (fun d => getRelativeRange props.node i d) id newDecs projDecs hdec
          rw [hd]
          unfold projectedDecorations
          refine congrArg (fun l => l ++ props.decorations) ?_
          apply List.filterMap_congr
          intro d _
          cases hg : getRelativeRange props.node i d with
          | ok ro => simp [hg]
          | error m => simp [hg]
        · have ha := mapExcept_filterMap
            (fun kv => Except.map (fun ro => (kv.1, ro)) (getRelativeRange props.node i kv.2))
            (fun kv => kv.2.map (fun rr => (kv.1, rr))) props.annotations projAnns hann
          rw [ha]
          show props.annotations.filterMap _ = projectedAnnotations props.node i props.annotations
          unfold projectedAnnotations
          apply List.filterMap_congr
          intro kv _
          cases hg : getRelativeRange props.node i kv.2 with
          | error m => simp [Except.map, hg]
          | ok ro =>
            cases ro with
            | none => simp [Except.map, hg]
            | some rr => simp [Except.map, hg]

/-- C7: for every successfully rendered node, each child receives
exactly the node's fresh decorations projected onto it (nulls dropped)
concatenated with the inherited decorations passed through, and exactly
the inherited annotations projected onto it (nulls dropped). -/
theorem childOverlays (props : ChildProps) (res : RenderResult) (i : Nat) (cp : ChildProps)
    (hr : render props = .ok res) (hc : res.hookProps.children.get? i = some cp) :
    cp.decorations
      = projectedDecorations props.node i (props.node.getDecorations props.editor)
        ++ props.decorations ∧
    cp.annotations = projectedAnnotations props.node i props.annotations := by
  simp only [render] at hr
  cases hmap : mapExcept
      (fun ic => renderChild props (props.node.getDecorations props.editor) ic.1 ic.2)
      props.node.nodes.enum with
  | error m => rw [hmap] at hr; simp at hr
  | ok children =>
    rw [hmap] at hr
    simp only [Except.ok.injEq] at hr
    subst hr
    have hc2 : children.get? i = some cp := hc
    obtain ⟨x, hx, hfx⟩ := mapExcept_ok_get _ _ _ hmap i cp hc2
    rw [List.get?_enum] at hx
    cases hget : props.node.nodes.get? i with
    | none => rw [hget] at hx; simp at hx
    | some c =>
      rw [hget] at hx
      simp only [Option.map_some'] at hx
      cases hx
      exact renderChild_overlays props _ i c cp hfx

/-- C9: for every successfully rendered node, the render hook invoked
is the one determined by the node's category (document, block, inline),
the output is void-wrapped exactly when the external void predicate
flags the node, and the void wrapper receives exactly the component's
own props. -/
theorem renderHook_void (props : ChildProps) (res : RenderResult)
    (hr : render props = .ok res) :
    res.usedHook = specHookName props.node.object ∧
    res.voidWrapped = props.editor.isVoid props.node ∧
    res.voidProps
      = (if props.editor.isVoid props.node then some props else none) := by
  simp only [render] at hr
  cases hmap : mapExcept
      (fun ic => renderChild props (props.node.getDecorations props.editor) ic.1 ic.2)
      props.node.nodes.enum with
  | error m => rw [hmap] at hr; simp at hr
  | ok children =>
    rw [hmap] at hr
    simp only [Except.ok.injEq] at hr
    subst hr
    refine ⟨?_, rfl, rfl⟩
    cases hobj : props.node.object <;> simp [specHookName, hobj]

/-- A sample decoration spanning from "Hello" into "World". -/
def sampleDecoration : Range :=
  { start := ⟨[0], 1⟩, finish := ⟨[1], 2⟩, kind := "decoration",
    isFocused := false, marks := ["bold"], key := "d" }

/-- A sample inherited decoration (passed through unprojected). -/
def inheritedDecoration : Range :=
  { start := ⟨[0], 0⟩, finish := ⟨[0], 4⟩, kind := "decoration",
    isFocused := false, marks := ["dim"], key := "i" }

/-- A sample annotation lying inside child 0. -/
def sampleAnnotationRange : Range :=
  { start := ⟨[0], 0⟩, finish := ⟨[0], 3⟩, kind := "annotation",
    isFocused := false, marks := [], key := "a1" }

/-- A sample editor: flags every node void, contributes one fresh
decoration per node, and reports left-to-right text. -/
def sampleEditor : Editor :=
  { isVoid := fun _ => true,
    nodeDecorations := fun _ => [sampleDecoration],
    textDirection := fun _ => "ltr" }

/-- Sample props rendering the Hello/World node with one annotation and
one inherited decoration. -/
def sampleProps : ChildProps :=
  { block := none, editor := sampleEditor,
    annotations := [("a1", sampleAnnotationRange)],
    decorations := [inheritedDecoration],
    selection := none, node := helloWorldNode, parent := none,
    readOnly := false, usesTextComponent := false }

/-- The render outcome on `sampleProps` (total by construction: the
fallback branch is never taken). -/
def sampleRender : RenderResult :=
  match render sampleProps with
  | .ok r => r
  | .error _ =>
    { usedHook := none,
      hookProps :=
        { key := "", isFocused := false, isSelected := false,
          node := helloWorldNode, parent := none, readOnly := false,
          attributes := { dataKey := "", dir := none }, children := [] },
      voidWrapped := false, voidProps := none }

/-- The props handed to child 0 in `sampleRender`. -/
def sampleChildProps : ChildProps :=
  match sampleRender.hookProps.children.get? 0 with
  | some cp => cp
  | none => sampleProps

/-- Witness for C7 at the concrete sample: child 0's decorations and
annotations are exactly the projected overlays. -/
theorem childOverlays_witness :
    sampleChildProps.decorations
      = projectedDecorations sampleProps.node 0
          (sampleProps.node.getDecorations sampleProps.editor)
        ++ sampleProps.decorations ∧
    sampleChildProps.annotations
      = projectedAnnotations sampleProps.node 0 sampleProps.annotations :=
  childOverlays sampleProps sampleRender 0 sampleChildProps rfl rfl

/-- Witness for C9 at the concrete sample: the block node uses
`renderBlock` and, being void, is wrapped with its own props. -/
theorem renderHook_void_witness :
    sampleRender.usedHook = specHookName sampleProps.node.object ∧
    sampleRender.voidWrapped = sampleProps.editor.isVoid sampleProps.node ∧
    sampleRender.voidProps
      = (if sampleProps.editor.isVoid sampleProps.node then some sampleProps else none) :=
  renderHook_void sampleProps sampleRender rfl

end Slate
